import Mathlib

/-!
Verification of the cross-domain message indexing and relay subsystem of the
drill-template-multichain repository, as a shallow embedding in Lean.

The embedding covers:
* `hashCrossDomainMessageV1` / `encodeCrossDomainMessageV1` from
  `foundry/ts/src/lib/services/optimism/optimism.ts` (keccak-256 of the ABI
  encoding of a `relayMessage` call), together with a full executable
  keccak-256 implementation standing for `ethers.utils.keccak256`;
* `getSentMessageEvents` from the same file (pairing of `SentMessage` and
  `SentMessageExtension1` logs, sender validation, value defaulting);
* the nonce versioning performed by `relayL1Message`;
* the `MessageRelayerService` state machine from
  `services/src/message-relayer/service.ts`: the message queue (a JS `Map`
  modelled as an insertion-ordered association list), both block cursors,
  the metrics gauges, and the functions `indexHistoricalMessages`,
  `indexNewMessages`, `checkRelayedMessages`, `relayPendingMessages`,
  `updateMetrics` and the `/healthz` and `/messages` routes.

Modelling conventions:
* Ethereum addresses are represented by their 160-bit numeric value (`Nat`).
  The source compares address strings case-insensitively
  (`a.toLowerCase() !== b.toLowerCase()`), which coincides with equality of
  the underlying numeric value for hex address strings; the comparison is
  therefore modelled as equality of the numeric values.
* Byte strings (`bytes` payloads, digests) are lists of bytes (`Nat < 256`).
* Fallible RPC calls are values of `Except String`; a provider is a record
  of such values/functions.  A thrown JS exception is the `.error` case and
  propagates exactly as far as the source's `try`/`catch` structure lets it.
-/

namespace Relayer

/-! ### Keccak-256 (the `ethers.utils.keccak256` primitive)

Standard Keccak-f[1600] with rate 1088 and the original Keccak padding
(domain byte `0x01`), i.e. the variant used by Ethereum.  Lanes are 64-bit
words represented as `Nat` with explicit reduction mod `2 ^ 64`. -/

/-- All 64 bits set; used to model 64-bit bitwise complement. -/
def mask64 : Nat := 2 ^ 64 - 1

/-- Rotate a 64-bit lane left by `r` (with `r < 64`). -/
def rotl64 (n r : Nat) : Nat :=
  ((n <<< r) ||| (n >>> (64 - r))) % 2 ^ 64

/-- Read lane `(x, y)` of a 25-lane state (row-major, index `x + 5 * y`),
coordinates taken mod 5. -/
def lane (a : List Nat) (x y : Nat) : Nat :=
  a.getD (x % 5 + 5 * (y % 5)) 0

/-- Build a 25-lane state from a function of the `(x, y)` coordinates. -/
def buildState (f : Nat → Nat → Nat) : List Nat :=
  (List.range 25).map (fun i => f (i % 5) (i / 5))

/-- Keccak θ: column parities. -/
def thetaC (a : List Nat) (x : Nat) : Nat :=
  lane a x 0 ^^^ lane a x 1 ^^^ lane a x 2 ^^^ lane a x 3 ^^^ lane a x 4

/-- Keccak θ: per-column correction. -/
def thetaD (a : List Nat) (x : Nat) : Nat :=
  thetaC a ((x + 4) % 5) ^^^ rotl64 (thetaC a ((x + 1) % 5)) 1

/-- Keccak θ step. -/
def theta (a : List Nat) : List Nat :=
  buildState (fun x y => lane a x y ^^^ thetaD a x)

/-- Rotation offsets of the ρ step (row-major, index `x + 5 * y`), derived by
the standard walk: starting from lane (1, 0), step `t` assigns offset
`(t + 1)(t + 2)/2 mod 64` and moves to `(y, (2x + 3y) mod 5)`. -/
def rhoOffsets : List Nat :=
  ((List.range 24).foldl
    (fun st t =>
      let x := st.2.1
      let y := st.2.2
      (st.1.set (x + 5 * y) ((t + 1) * (t + 2) / 2 % 64), (y, (2 * x + 3 * y) % 5)))
    (List.replicate 25 0, (1, 0))).1

/-- Combined ρ and π steps: the target lane `(x, y)` receives the source lane
`(3 * (y + 2 * x) % 5, x)` rotated by its ρ offset. -/
def rhoPi (a : List Nat) : List Nat :=
  buildState (fun x y =>
    rotl64 (lane a (3 * (y + 2 * x) % 5) x)
      (rhoOffsets.getD (3 * (y + 2 * x) % 5 + 5 * x) 0))

/-- Keccak χ step. -/
def chi (a : List Nat) : List Nat :=
  buildState (fun x y => lane a x y ^^^ ((lane a (x + 1) y ^^^ mask64) &&& lane a (x + 2) y))

/-- One step of the degree-8 LFSR `x^8 + x^6 + x^5 + x^4 + 1` used to define
the ι round constants. -/
def lfsrStep (r : Nat) : Nat :=
  if (r <<< 1) &&& 0x100 ≠ 0 then ((r <<< 1) ^^^ 0x71) &&& 0xFF else (r <<< 1) &&& 0xFF

/-- LFSR state after `t` steps from the initial state 1. -/
def lfsrState : Nat → Nat
  | 0 => 1
  | t + 1 => lfsrStep (lfsrState t)

/-- `rc(t)` of FIPS 202: the low bit of the LFSR state. -/
def rcBit (t : Nat) : Nat := lfsrState t &&& 1

/-- Round constant of round `i`: bit `2 ^ j - 1` is `rc(j + 7 i)`. -/
def roundConstant (i : Nat) : Nat :=
  (List.range 7).foldl (fun acc j => acc ||| (rcBit (j + 7 * i) <<< (2 ^ j - 1))) 0

/-- Round constants of the ι step. -/
def roundConstants : List Nat :=
  (List.range 24).map roundConstant

/-- One Keccak-f round. -/
def keccakRound (i : Nat) (a : List Nat) : List Nat :=
  let b := chi (rhoPi (theta a))
  b.set 0 (b.getD 0 0 ^^^ roundConstants.getD i 0)

/-- The Keccak-f[1600] permutation (24 rounds). -/
def keccakF (a : List Nat) : List Nat :=
  (List.range 24).foldl (fun st i => keccakRound i st) a

/-- Interpret (up to) 8 bytes as a little-endian 64-bit lane. -/
def bytesToLane (bs : List Nat) : Nat :=
  bs.foldr (fun b acc => acc * 256 + b % 256) 0

/-- Absorb one 136-byte block into the state and permute. -/
def absorbBlock (st : List Nat) (block : List Nat) : List Nat :=
  keccakF ((List.range 25).map (fun i =>
    st.getD i 0 ^^^ (if i < 17 then bytesToLane ((block.drop (8 * i)).take 8) else 0)))

/-- Original Keccak pad10*1 padding (domain byte `0x01`) to a multiple of the
136-byte rate. -/
def keccakPad (msg : List Nat) : List Nat :=
  let padLen := 136 - msg.length % 136
  msg ++ (if padLen = 1 then [0x81] else 0x01 :: List.replicate (padLen - 2) 0 ++ [0x80])

/-- Keccak-256 of a byte string (the semantics of `ethers.utils.keccak256`). -/
def keccak256 (msg : List Nat) : List Nat :=
  let padded := keccakPad msg
  let final := (List.range (padded.length / 136)).foldl
    (fun st i => absorbBlock st ((padded.drop (136 * i)).take 136))
    (List.replicate 25 0)
  (List.range 32).map (fun i => final.getD (i / 8) 0 / 256 ^ (i % 8) % 256)

/-- The bytes of the ASCII representation of a string (used for computing the
4-byte function selector of `relayMessage`). -/
def asciiBytes (s : String) : List Nat :=
  s.toList.map Char.toNat

/-! ### The Message Identity Function
(`encodeCrossDomainMessageV1` / `hashCrossDomainMessageV1` in
`foundry/ts/src/lib/services/optimism/optimism.ts`)

The source builds the calldata of
`relayMessage(uint256 nonce, address sender, address target, uint256 value,
uint256 gasLimit, bytes data)` with `ethers` `Interface.encodeFunctionData`
and hashes it with `keccak256`.  The embedding spells out that ABI encoding:
4-byte selector, six 32-byte head words (the `bytes` head word being the
tail offset `0xc0`), then the `bytes` tail (length word plus zero-padded
data). -/

/-- A 32-byte big-endian ABI word for a `uint256`/`address` argument. -/
def uint256Word (n : Nat) : List Nat :=
  (List.range 32).map (fun i => n % 2 ^ 256 / 256 ^ (31 - i) % 256)

/-- Zero-pad a byte string on the right to a multiple of 32 bytes. -/
def padRight32 (bs : List Nat) : List Nat :=
  bs ++ List.replicate ((32 - bs.length % 32) % 32) 0

/-- The 4-byte selector of `relayMessage`, derived (as `ethers` does) from the
keccak-256 of the canonical signature string. -/
def relayMessageSelector : List Nat :=
  (keccak256 (asciiBytes "relayMessage(uint256,address,address,uint256,uint256,bytes)")).take 4

/-- `encodeCrossDomainMessageV1`: the V1 encoding of a cross-domain message,
i.e. the calldata of the corresponding `relayMessage` call. -/
def encodeCrossDomainMessageV1 (nonce sender target value gasLimit : Nat)
    (data : List Nat) : List Nat :=
  relayMessageSelector ++
    uint256Word nonce ++ uint256Word sender ++ uint256Word target ++
    uint256Word value ++ uint256Word gasLimit ++ uint256Word 0xc0 ++
    uint256Word data.length ++ padRight32 data

/-- `hashCrossDomainMessageV1`: keccak-256 of the V1 encoding. -/
def hashCrossDomainMessageV1 (nonce sender target value gasLimit : Nat)
    (data : List Nat) : List Nat :=
  keccak256 (encodeCrossDomainMessageV1 nonce sender target value gasLimit data)

/-! ### Relay submission (`relayL1Message`)

`relayL1Message` ORs a version-1 discriminator into the top 16 bits of the
nonce (`BigNumber.from(1).shl(240).or(nonce)`) and calls the L2 messenger's
`relayMessage` with `(versionedNonce, l1Sender, target, value, minGasLimit,
message)`.  The embedding records the argument tuple of that call. -/

/-- The versioned nonce computed by `relayL1Message`. -/
def versionedNonce (nonce : Nat) : Nat :=
  (1 <<< 240) ||| nonce

/-- The argument tuple of the `relayMessage` call submitted by
`relayL1Message`. -/
structure RelayCall where
  nonce : Nat
  sender : Nat
  target : Nat
  value : Nat
  gasLimit : Nat
  message : List Nat
  deriving DecidableEq, Repr

/-- The `relayMessage` call that `relayL1Message provider l1Sender target
message nonce value minGasLimit` populates and submits. -/
def relayL1MessageCall (l1Sender target : Nat) (message : List Nat)
    (nonce value minGasLimit : Nat) : RelayCall :=
  { nonce := versionedNonce nonce
    sender := l1Sender
    target := target
    value := value
    gasLimit := minGasLimit
    message := message }

/-! ### Event indexing (`getSentMessageEvents`)

A `SentMessage` log carries `(target, sender, message, messageNonce,
gasLimit)`; a `SentMessageExtension1` log carries `(sender, value)`.  The
source pairs them by transaction hash, fails the whole batch on a sender
mismatch, defaults `value` to zero when no extension is found, and computes
the identity hash of each resulting record. -/

/-- A decoded `SentMessage` event. -/
structure SentEvent where
  transactionHash : String
  blockNumber : Nat
  sender : Nat
  target : Nat
  messageNonce : Nat
  gasLimit : Nat
  message : List Nat
  deriving DecidableEq, Repr

/-- A decoded `SentMessageExtension1` event. -/
structure ExtEvent where
  transactionHash : String
  sender : Nat
  value : Nat
  deriving DecidableEq, Repr

/-- The record type returned by `getSentMessageEvents`. -/
structure MessageRec where
  messageHash : List Nat
  sender : Nat
  target : Nat
  message : List Nat
  messageNonce : Nat
  gasLimit : Nat
  value : Nat
  blockNumber : Nat
  transactionHash : String
  deriving DecidableEq, Repr

/-- The record `getSentMessageEvents` builds for one event and a resolved
`value`. -/
def mkRec (event : SentEvent) (value : Nat) : MessageRec :=
  { messageHash := hashCrossDomainMessageV1 event.messageNonce event.sender
      event.target value event.gasLimit event.message
    sender := event.sender
    target := event.target
    message := event.message
    messageNonce := event.messageNonce
    gasLimit := event.gasLimit
    value := value
    blockNumber := event.blockNumber
    transactionHash := event.transactionHash }

/-- The body of the `sentMessageEvents.map` in `getSentMessageEvents`: find
the extension event with the same transaction hash, throw on a sender
mismatch, otherwise build the record (value defaulting to zero). -/
def processSentEvent (extensionEvents : List ExtEvent) (event : SentEvent) :
    Except String MessageRec :=
  match extensionEvents.find? (fun ext => ext.transactionHash == event.transactionHash) with
  | some extensionEvent =>
      if extensionEvent.sender = event.sender then
        Except.ok (mkRec event extensionEvent.value)
      else
        Except.error ("Sender mismatch in transaction " ++ event.transactionHash)
  | none => Except.ok (mkRec event 0)

/-- `Promise.all` over fallible per-event computations: the batch succeeds
only if every element does, and any rejection rejects the whole batch. -/
def collectAll {α β : Type} (f : α → Except String β) : List α → Except String (List β)
  | [] => Except.ok []
  | a :: as =>
    match f a with
    | Except.error e => Except.error e
    | Except.ok b =>
      match collectAll f as with
      | Except.error e => Except.error e
      | Except.ok bs => Except.ok (b :: bs)

/-- `getSentMessageEvents`, as a function of the two decoded log streams
returned by the range queries. -/
def getSentMessageEvents (sentMessageEvents : List SentEvent)
    (extensionEvents : List ExtEvent) : Except String (List MessageRec) :=
  collectAll (processSentEvent extensionEvents) sentMessageEvents

/-! ### The message-relayer service state
(`services/src/message-relayer/service.ts`)

The JS `Map` used as the message ledger is modelled as an insertion-ordered
association list with JS `Map` semantics: `set` replaces the value in place
when the key exists (keeping its position) and appends otherwise; iteration
follows insertion order. -/

/-- JS `Map.prototype.set` on an insertion-ordered association list. -/
def mapSet {α β : Type} [DecidableEq α] : List (α × β) → α → β → List (α × β)
  | [], k, v => [(k, v)]
  | (k0, v0) :: rest, k, v =>
    if k0 = k then (k, v) :: rest else (k0, v0) :: mapSet rest k v

/-- JS `Map.prototype.get` on an insertion-ordered association list. -/
def mapGet {α β : Type} [DecidableEq α] (m : List (α × β)) (k : α) : Option β :=
  (m.find? (fun p => p.1 == k)).map (fun p => p.2)

/-- A tracked message (the service's `Message` type: an indexed record plus
its source timestamp and relay status). -/
structure Message where
  messageHash : List Nat
  sender : Nat
  target : Nat
  message : List Nat
  messageNonce : Nat
  gasLimit : Nat
  value : Nat
  blockNumber : Nat
  transactionHash : String
  timestamp : Nat
  isRelayed : Bool
  deriving DecidableEq, Repr

/-- The service's gauges.  `pendingMessages` is decremented as well as
incremented, so it carries an `Int`. -/
structure Metrics where
  nodeConnectionFailures : Nat
  messagesSent : Nat
  messagesRelayed : Nat
  pendingMessages : Int
  deriving DecidableEq, Repr

/-- The service state: the message queue, both block cursors and the
metrics. -/
structure Service where
  messageQueue : List (List Nat × Message)
  lastScannedL1Block : Nat
  lastScannedL2Block : Nat
  metrics : Metrics
  deriving DecidableEq, Repr

/-- The L1 provider surface the service consumes: `getBlockNumber`, the two
paired `queryFilter` range queries, and `getBlock(n).timestamp`. -/
structure L1Net where
  blockNumber : Except String Nat
  queryLogs : Nat → Nat → Except String (List SentEvent × List ExtEvent)
  blockTimestamp : Nat → Except String Nat

/-- The L2 provider surface: `getBlockNumber` and the `RelayedMessage` range
query (which yields message hashes). -/
structure L2Net where
  blockNumber : Except String Nat
  relayedHashes : Nat → Nat → Except String (List (List Nat))

/-- `getSentMessageEvents` as invoked against a provider: run both range
queries, then pair and validate. -/
def getSentMessageEventsNet (net : L1Net) (fromBlock toBlock : Nat) :
    Except String (List MessageRec) :=
  match net.queryLogs fromBlock toBlock with
  | Except.error e => Except.error e
  | Except.ok (sent, exts) => getSentMessageEvents sent exts

/-- The message the indexing loops store for an indexed record:
`{ ...msg, timestamp, isRelayed: false }`. -/
def mkMessage (msg : MessageRec) (timestamp : Nat) : Message :=
  { messageHash := msg.messageHash
    sender := msg.sender
    target := msg.target
    message := msg.message
    messageNonce := msg.messageNonce
    gasLimit := msg.gasLimit
    value := msg.value
    blockNumber := msg.blockNumber
    transactionHash := msg.transactionHash
    timestamp := timestamp
    isRelayed := false }

/-- The shared body of the indexing loops in `indexHistoricalMessages` and
`indexNewMessages`: `messageQueue.set(msg.messageHash, { ...msg, timestamp,
isRelayed: false })` followed by `metrics.messagesSent.inc()`. -/
def indexInsertStep (s : Service) (msg : MessageRec) (timestamp : Nat) : Service :=
  { s with
    messageQueue := mapSet s.messageQueue msg.messageHash (mkMessage msg timestamp)
    metrics := { s.metrics with messagesSent := s.metrics.messagesSent + 1 } }

/-- The `for (const msg of ...)` loop of the indexing passes: fetch the block
timestamp (aborting the pass on a thrown read, with the inserts made so far
kept) and insert each message. -/
def addMessagesLoop (net : L1Net) : List MessageRec → Service → Service × Option String
  | [], s => (s, none)
  | msg :: rest, s =>
    match net.blockTimestamp msg.blockNumber with
    | Except.error e => (s, some e)
    | Except.ok timestamp => addMessagesLoop net rest (indexInsertStep s msg timestamp)

/-- `indexNewMessages`: fetch the L1 head; if it is beyond the cursor, scan
`[cursor + 1, head]`, insert every returned message, then advance the cursor
to the head.  A thrown read aborts the pass (second component `some error`)
before the cursor assignment. -/
def indexNewMessages (net : L1Net) (s : Service) : Service × Option String :=
  match net.blockNumber with
  | Except.error e => (s, some e)
  | Except.ok latestL1Block =>
    if s.lastScannedL1Block < latestL1Block then
      match getSentMessageEventsNet net (s.lastScannedL1Block + 1) latestL1Block with
      | Except.error e => (s, some e)
      | Except.ok newMessages =>
        match addMessagesLoop net newMessages s with
        | (s1, some e) => (s1, some e)
        | (s1, none) => ({ s1 with lastScannedL1Block := latestL1Block }, none)
    else (s, none)

/-- The body of the confirmation loop in `checkRelayedMessages`:
`if (message && !message.isRelayed)` mark it relayed and bump the gauges;
otherwise do nothing. -/
def markRelayedStep (s : Service) (hash : List Nat) : Service :=
  match mapGet s.messageQueue hash with
  | some message =>
    if message.isRelayed then s
    else
      { s with
        messageQueue := mapSet s.messageQueue hash { message with isRelayed := true }
        metrics := { s.metrics with
          messagesRelayed := s.metrics.messagesRelayed + 1
          pendingMessages := s.metrics.pendingMessages - 1 } }
  | none => s

/-- The confirmation loop of `checkRelayedMessages`. -/
def markRelayedLoop (hashes : List (List Nat)) (s : Service) : Service :=
  hashes.foldl markRelayedStep s

/-- `checkRelayedMessages`: fetch the L2 head; if it is beyond the cursor,
scan `[cursor + 1, head]` for `RelayedMessage` hashes, mark the matching
pending messages relayed, then advance the cursor to the head. -/
def checkRelayedMessages (net : L2Net) (s : Service) : Service × Option String :=
  match net.blockNumber with
  | Except.error e => (s, some e)
  | Except.ok latestL2Block =>
    if s.lastScannedL2Block < latestL2Block then
      match net.relayedHashes (s.lastScannedL2Block + 1) latestL2Block with
      | Except.error e => (s, some e)
      | Except.ok newRelayedHashes =>
        ({ markRelayedLoop newRelayedHashes s with lastScannedL2Block := latestL2Block }, none)
    else (s, none)

/-- The body of the confirmation loop in `indexHistoricalMessages`, which
(unlike `checkRelayedMessages`) marks without the `!isRelayed` guard and
without touching the pending gauge: `if (message) { message.isRelayed =
true; metrics.messagesRelayed.inc() }`. -/
def markRelayedHistStep (s : Service) (hash : List Nat) : Service :=
  match mapGet s.messageQueue hash with
  | some message =>
    { s with
      messageQueue := mapSet s.messageQueue hash { message with isRelayed := true }
      metrics := { s.metrics with messagesRelayed := s.metrics.messagesRelayed + 1 } }
  | none => s

/-- The confirmation loop of `indexHistoricalMessages`. -/
def markRelayedHistLoop (hashes : List (List Nat)) (s : Service) : Service :=
  hashes.foldl markRelayedHistStep s

/-- The configured start blocks. -/
structure HOptions where
  l1StartBlock : Nat
  l2StartBlock : Nat
  deriving DecidableEq, Repr

/-- `indexHistoricalMessages`: capture both heads, scan
`[l1StartBlock, l1Head]` for sent messages and insert them, set the L1
cursor to the captured L1 head, scan `[l2StartBlock, l2Head]` for relayed
hashes and mark them, set the L2 cursor to the captured L2 head.  Cursor
assignments are unconditional; a thrown read aborts the remainder. -/
def indexHistoricalMessages (l1 : L1Net) (l2 : L2Net) (opts : HOptions)
    (s : Service) : Service × Option String :=
  match l1.blockNumber with
  | Except.error e => (s, some e)
  | Except.ok latestL1Block =>
    match l2.blockNumber with
    | Except.error e => (s, some e)
    | Except.ok latestL2Block =>
      match getSentMessageEventsNet l1 opts.l1StartBlock latestL1Block with
      | Except.error e => (s, some e)
      | Except.ok sentMessages =>
        match addMessagesLoop l1 sentMessages s with
        | (s1, some e) => (s1, some e)
        | (s1, none) =>
          match l2.relayedHashes opts.l2StartBlock latestL2Block with
          | Except.error e => ({ s1 with lastScannedL1Block := latestL1Block }, some e)
          | Except.ok relayedHashList =>
            ({ markRelayedHistLoop relayedHashList
                  { s1 with lastScannedL1Block := latestL1Block } with
                lastScannedL2Block := latestL2Block }, none)

/-- The state `init` builds before calling `indexHistoricalMessages`: empty
queue, zeroed gauges, cursors at the configured start blocks. -/
def serviceInit (opts : HOptions) : Service :=
  { messageQueue := []
    lastScannedL1Block := opts.l1StartBlock
    lastScannedL2Block := opts.l2StartBlock
    metrics := { nodeConnectionFailures := 0, messagesSent := 0
                 messagesRelayed := 0, pendingMessages := 0 } }

/-- `init`: initialize the state, then run the historical indexing pass. -/
def initService (l1 : L1Net) (l2 : L2Net) (opts : HOptions) : Service × Option String :=
  indexHistoricalMessages l1 l2 opts (serviceInit opts)

/-- The `relayPendingMessages` loop over the queue entries.  `relayOk`
abstracts the outcome of the awaited `relayL1Message` call for a given
message: `true` means the relay transaction confirmed, `false` means the
call threw (the `catch` branch, which only logs).  Skips entries that are
already relayed; on success flips `isRelayed` and bumps the gauges; on
failure leaves the entry untouched and continues with the next entry. -/
def relayLoop (relayOk : Message → Bool) :
    List (List Nat × Message) → Metrics → List (List Nat × Message) × Metrics
  | [], mets => ([], mets)
  | (hash, message) :: rest, mets =>
    if message.isRelayed then
      let r := relayLoop relayOk rest mets
      ((hash, message) :: r.1, r.2)
    else if relayOk message then
      let r := relayLoop relayOk rest
        { mets with
          messagesRelayed := mets.messagesRelayed + 1
          pendingMessages := mets.pendingMessages - 1 }
      ((hash, { message with isRelayed := true }) :: r.1, r.2)
    else
      let r := relayLoop relayOk rest mets
      ((hash, message) :: r.1, r.2)

/-- `relayPendingMessages` on the service state. -/
def relayPendingMessages (relayOk : Message → Bool) (s : Service) : Service :=
  { s with
    messageQueue := (relayLoop relayOk s.messageQueue s.metrics).1
    metrics := (relayLoop relayOk s.messageQueue s.metrics).2 }

/-- The number of stored messages whose status is `Pending`
(`isRelayed = false`), as counted by `updateMetrics`. -/
def pendingCount (s : Service) : Nat :=
  (s.messageQueue.filter (fun p => !p.2.isRelayed)).length

/-- `updateMetrics`: recompute the pending gauge from the queue. -/
def updateMetrics (s : Service) : Service :=
  { s with metrics := { s.metrics with pendingMessages := pendingCount s } }

/-- The JSON body of the `/healthz` route. -/
structure HealthzResponse where
  status : Nat
  ok : Bool
  synced : Bool
  pendingMessages : Nat
  deriving DecidableEq, Repr

/-- The `/healthz` handler: always responds 200 with `ok: true`,
`synced: true` and `pendingMessages: messageQueue.size`; the state is
returned unchanged (the handler only reads it). -/
def healthzHandler (s : Service) : HealthzResponse × Service :=
  ({ status := 200, ok := true, synced := true
     pendingMessages := s.messageQueue.length }, s)

/-- The `/messages` handler: responds with `Array.from(messageQueue.values())`;
the state is returned unchanged. -/
def messagesHandler (s : Service) : List Message × Service :=
  (s.messageQueue.map (fun p => p.2), s)

/-! ### Helper lemmas -/

theorem mapGet_mapSet_self {α β : Type} [DecidableEq α] (m : List (α × β)) (k : α) (v : β) :
    mapGet (mapSet m k v) k = some v := by
  induction m with
  | nil => simp [mapSet, mapGet]
  | cons p rest ih =>
    obtain ⟨k0, v0⟩ := p
    by_cases h : k0 = k
    · subst h; simp [mapSet, mapGet]
    · simp only [mapSet, if_neg h, mapGet, List.find?]
      have : (k0 == k) = false := by simpa using h
      rw [this]
      exact ih

theorem addMessagesLoop_preserves (net : L1Net) :
    ∀ (msgs : List MessageRec) (s : Service),
      (addMessagesLoop net msgs s).1.lastScannedL1Block = s.lastScannedL1Block ∧
      (addMessagesLoop net msgs s).1.lastScannedL2Block = s.lastScannedL2Block ∧
      (addMessagesLoop net msgs s).1.metrics.nodeConnectionFailures
        = s.metrics.nodeConnectionFailures := by
  intro msgs
  induction msgs with
  | nil => intro s; simp [addMessagesLoop]
  | cons msg rest ih =>
    intro s
    simp only [addMessagesLoop]
    cases net.blockTimestamp msg.blockNumber with
    | error e => simp
    | ok ts => simpa [indexInsertStep] using ih (indexInsertStep s msg ts)

theorem markRelayedHistStep_cursors (s : Service) (h : List Nat) :
    (markRelayedHistStep s h).lastScannedL1Block = s.lastScannedL1Block ∧
    (markRelayedHistStep s h).lastScannedL2Block = s.lastScannedL2Block := by
  unfold markRelayedHistStep
  cases mapGet s.messageQueue h with
  | none => exact ⟨rfl, rfl⟩
  | some message => exact ⟨rfl, rfl⟩

theorem markRelayedHistLoop_cursors :
    ∀ (hashes : List (List Nat)) (s : Service),
      (markRelayedHistLoop hashes s).lastScannedL1Block = s.lastScannedL1Block ∧
      (markRelayedHistLoop hashes s).lastScannedL2Block = s.lastScannedL2Block := by
  intro hashes
  induction hashes with
  | nil => intro s; exact ⟨rfl, rfl⟩
  | cons h rest ih =>
    intro s
    have h1 := markRelayedHistStep_cursors s h
    have h2 := ih (markRelayedHistStep s h)
    simp only [markRelayedHistLoop, List.foldl] at h2 ⊢
    exact ⟨h2.1.trans h1.1, h2.2.trans h1.2⟩

theorem collectAll_error_of_mem {α β : Type} (f : α → Except String β) :
    ∀ (l : List α) (a : α), a ∈ l → (∃ e, f a = Except.error e) →
      ∃ e, collectAll f l = Except.error e := by
  intro l
  induction l with
  | nil => intro a ha; simp at ha
  | cons x xs ih =>
    intro a ha hfa
    obtain ⟨e, he⟩ := hfa
    rcases List.mem_cons.mp ha with h | h
    · subst h
      exact ⟨e, by simp [collectAll, he]⟩
    · cases hx : f x with
      | error e2 => exact ⟨e2, by simp [collectAll, hx]⟩
      | ok b =>
        obtain ⟨e2, he2⟩ := ih a h ⟨e, he⟩
        exact ⟨e2, by simp [collectAll, hx, he2]⟩

theorem collectAll_ok_get {α β : Type} (f : α → Except String β) :
    ∀ (l : List α) (bs : List β), collectAll f l = Except.ok bs →
      ∀ (i : Nat) (a : α), l[i]? = some a →
        ∃ b, f a = Except.ok b ∧ bs[i]? = some b := by
  intro l
  induction l with
  | nil => intro bs _ i a ha; simp at ha
  | cons x xs ih =>
    intro bs h i a ha
    cases hx : f x with
    | error e => simp [collectAll, hx] at h
    | ok b =>
      cases hxs : collectAll f xs with
      | error e => simp [collectAll, hx, hxs] at h
      | ok bs' =>
        simp only [collectAll, hx, hxs] at h
        injection h with h
        subst h
        cases i with
        | zero =>
          simp only [List.getElem?_cons_zero, Option.some.injEq] at ha
          subst ha
          exact ⟨b, hx, by simp⟩
        | succ n =>
          simp only [List.getElem?_cons_succ] at ha ⊢
          exact ih bs' hxs n a ha

theorem two_pow_or_eq_add {i n : Nat} (h : n < 2 ^ i) : 2 ^ i ||| n = 2 ^ i + n := by
  apply Nat.eq_of_testBit_eq
  intro j
  rcases Nat.lt_trichotomy j i with hj | hj | hj
  · rw [Nat.testBit_or, Nat.testBit_two_pow_of_ne hj.ne', Nat.testBit_two_pow_add_gt hj,
      Bool.false_or]
  · subst hj
    rw [Nat.testBit_or, Nat.testBit_two_pow_self, Nat.testBit_two_pow_add_eq,
      Nat.testBit_lt_two_pow h, Bool.true_or, Bool.not_false]
  · have hn : n < 2 ^ j := lt_trans h (Nat.pow_lt_pow_right (by decide) hj)
    have hadd : 2 ^ i + n < 2 ^ j := by
      have h1 : 2 ^ i + n < 2 ^ (i + 1) := by
        have := Nat.pow_succ 2 i
        omega
      exact Nat.lt_of_lt_of_le h1 (Nat.pow_le_pow_right (by decide) hj)
    rw [Nat.testBit_or, Nat.testBit_two_pow_of_ne hj.ne, Nat.testBit_lt_two_pow hn,
      Nat.testBit_lt_two_pow hadd, Bool.false_or]

/-! ### Claims about the identity function, event pairing and nonce versioning -/

/-- C8: the Message Identity Function is deterministic: two calls of
`hashCrossDomainMessageV1` with equal `(nonce, sender, target, value,
gasLimit, payload)` inputs return equal digests, and the function is the
keccak-256 of the deterministic `encodeCrossDomainMessageV1` encoding of
the six fields.  Totality holds by construction: the embedding is a total
Lean function with no error case. -/
theorem hashCrossDomainMessageV1_deterministic :
    (∀ (n s t v g : Nat) (d : List Nat) (n' s' t' v' g' : Nat) (d' : List Nat),
        n = n' → s = s' → t = t' → v = v' → g = g' → d = d' →
        hashCrossDomainMessageV1 n s t v g d = hashCrossDomainMessageV1 n' s' t' v' g' d') ∧
    (∀ (n s t v g : Nat) (d : List Nat),
        hashCrossDomainMessageV1 n s t v g d =
          keccak256 (encodeCrossDomainMessageV1 n s t v g d)) := by
  constructor
  · intro n s t v g d n' s' t' v' g' d' h1 h2 h3 h4 h5 h6
    subst h1; subst h2; subst h3; subst h4; subst h5; subst h6; rfl
  · intro n s t v g d
    rfl

/-- Witness for C8 at the concrete message of the spec's end-to-end
scenario. -/
theorem hashCrossDomainMessageV1_deterministic_witness :
    hashCrossDomainMessageV1 1 0xAA 0xBB 0 200000 [0x12, 0x34] =
      hashCrossDomainMessageV1 1 0xAA 0xBB 0 200000 [0x12, 0x34] :=
  hashCrossDomainMessageV1_deterministic.1 1 0xAA 0xBB 0 200000 [0x12, 0x34]
    1 0xAA 0xBB 0 200000 [0x12, 0x34] rfl rfl rfl rfl rfl rfl

/-- C10: `relayL1Message` always re-applies the version discriminator: the
submitted nonce is `(1 <<< 240) ||| nonce` for every input.  If the indexed
nonce already carries version 1 in its high bits (`nonce >>> 240 = 1`) the
submitted nonce equals the indexed nonce; a version-0 nonce
(`nonce < 2 ^ 240`) is submitted with the version-1 bit added, differing
from the nonce that was hashed. -/
theorem relayL1Message_nonce_versioned (l1Sender target : Nat) (message : List Nat)
    (nonce value minGasLimit : Nat) :
    (relayL1MessageCall l1Sender target message nonce value minGasLimit).nonce
        = (1 <<< 240) ||| nonce ∧
    (nonce >>> 240 = 1 →
      (relayL1MessageCall l1Sender target message nonce value minGasLimit).nonce = nonce) ∧
    (nonce < 2 ^ 240 →
      (relayL1MessageCall l1Sender target message nonce value minGasLimit).nonce
          = 2 ^ 240 + nonce ∧
      (relayL1MessageCall l1Sender target message nonce value minGasLimit).nonce ≠ nonce) := by
  refine ⟨rfl, ?_, ?_⟩
  · intro h
    show versionedNonce nonce = nonce
    unfold versionedNonce
    rw [Nat.one_shiftLeft]
    have hdiv : nonce / 2 ^ 240 = 1 := by
      rw [← Nat.shiftRight_eq_div_pow]; exact h
    have hbit : nonce.testBit 240 = true := by
      rw [Nat.testBit_to_div_mod, hdiv]
      decide
    apply Nat.eq_of_testBit_eq
    intro j
    rw [Nat.testBit_or]
    by_cases hj : j = 240
    · subst hj
      rw [hbit, Nat.testBit_two_pow_self]
      rfl
    · rw [Nat.testBit_two_pow_of_ne (fun hh => hj hh.symm), Bool.false_or]
  · intro h
    have hadd : versionedNonce nonce = 2 ^ 240 + nonce := by
      unfold versionedNonce
      rw [Nat.one_shiftLeft]
      exact two_pow_or_eq_add h
    refine ⟨hadd, ?_⟩
    show versionedNonce nonce ≠ nonce
    rw [hadd]
    have := Nat.two_pow_pos 240
    omega

/-- Witness for C10: a nonce already carrying version 1 is submitted
unchanged; the version-0 nonce `5` is submitted as a different value. -/
theorem relayL1Message_nonce_versioned_witness :
    (relayL1MessageCall 2 3 [] (2 ^ 240 + 5) 0 5000000).nonce = 2 ^ 240 + 5 ∧
    (relayL1MessageCall 2 3 [] 5 0 5000000).nonce ≠ 5 := by
  constructor
  · exact (relayL1Message_nonce_versioned 2 3 [] (2 ^ 240 + 5) 0 5000000).2.1
      (by rw [Nat.shiftRight_eq_div_pow]; omega)
  · exact ((relayL1Message_nonce_versioned 2 3 [] 5 0 5000000).2.2
      (by have := Nat.two_pow_pos 240; omega)).2

/-- C9: a primary `SentMessage` event with no matching
`SentMessageExtension1` event yields a record with `value = 0`, whose
identity hash is computed with `value = 0`. -/
theorem getSentMessageEvents_no_extension_value_zero
    (sent : List SentEvent) (exts : List ExtEvent) (recs : List MessageRec)
    (i : Nat) (ev : SentEvent)
    (hok : getSentMessageEvents sent exts = Except.ok recs)
    (hev : sent[i]? = some ev)
    (hnoext : exts.find? (fun ext => ext.transactionHash == ev.transactionHash) = none) :
    recs[i]? = some (mkRec ev 0) ∧
    (mkRec ev 0).value = 0 ∧
    (mkRec ev 0).messageHash =
      hashCrossDomainMessageV1 ev.messageNonce ev.sender ev.target 0 ev.gasLimit ev.message := by
  refine ⟨?_, rfl, rfl⟩
  obtain ⟨b, hfb, hbs⟩ := collectAll_ok_get _ sent recs hok i ev hev
  have hproc : processSentEvent exts ev = Except.ok (mkRec ev 0) := by
    unfold processSentEvent
    rw [hnoext]
  rw [hproc] at hfb
  injection hfb with hfb
  rw [hfb]
  exact hbs

/-- A concrete `SentMessage` event (the spec's end-to-end scenario). -/
def evC9 : SentEvent :=
  { transactionHash := "0x01", blockNumber := 105, sender := 0xAA, target := 0xBB
    messageNonce := 1, gasLimit := 200000, message := [0x12, 0x34] }

/-- Witness for C9 at a singleton batch with no extension events. -/
theorem getSentMessageEvents_no_extension_value_zero_witness :
    ([mkRec evC9 0] : List MessageRec)[0]? = some (mkRec evC9 0) ∧
    (mkRec evC9 0).value = 0 :=
  ⟨(getSentMessageEvents_no_extension_value_zero [evC9] [] [mkRec evC9 0] 0 evC9
      rfl rfl rfl).1,
   (getSentMessageEvents_no_extension_value_zero [evC9] [] [mkRec evC9 0] 0 evC9
      rfl rfl rfl).2.1⟩

/-- C4: pairing integrity.  If some scanned primary event's matched
extension event (same transaction hash) has a differing sender,
`getSentMessageEvents` fails the whole batch with an error, and the
indexing pass adds nothing to the message store. -/
theorem getSentMessageEvents_sender_mismatch_fails
    (sent : List SentEvent) (exts : List ExtEvent) (ev : SentEvent) (ext : ExtEvent)
    (hmem : ev ∈ sent)
    (hfind : exts.find? (fun x => x.transactionHash == ev.transactionHash) = some ext)
    (hmismatch : ext.sender ≠ ev.sender) :
    (∃ e, getSentMessageEvents sent exts = Except.error e) ∧
    (∀ (net : L1Net) (s : Service) (latest : Nat),
        net.blockNumber = Except.ok latest →
        net.queryLogs (s.lastScannedL1Block + 1) latest = Except.ok (sent, exts) →
        (indexNewMessages net s).1.messageQueue = s.messageQueue) := by
  have herr : ∃ e, getSentMessageEvents sent exts = Except.error e := by
    apply collectAll_error_of_mem _ sent ev hmem
    refine ⟨"Sender mismatch in transaction " ++ ev.transactionHash, ?_⟩
    simp only [processSentEvent, hfind, if_neg hmismatch]
  refine ⟨herr, ?_⟩
  intro net s latest hbn hq
  obtain ⟨e, he⟩ := herr
  have hnet : getSentMessageEventsNet net (s.lastScannedL1Block + 1) latest
      = Except.error e := by
    simp only [getSentMessageEventsNet, hq]
    exact he
  by_cases hlt : s.lastScannedL1Block < latest
  · simp only [indexNewMessages, hbn, if_pos hlt, hnet]
  · simp only [indexNewMessages, hbn, if_neg hlt]

/-- A concrete primary event for the C4 witness. -/
def evC4 : SentEvent :=
  { transactionHash := "0xdead", blockNumber := 3, sender := 1, target := 2
    messageNonce := 0, gasLimit := 1, message := [] }

/-- A concrete extension event with the same transaction hash as `evC4` but
a different sender. -/
def extC4 : ExtEvent :=
  { transactionHash := "0xdead", sender := 9, value := 5 }

/-- An L1 provider whose scan returns the mismatched pair. -/
def l1C4 : L1Net :=
  { blockNumber := Except.ok 9
    queryLogs := fun _ _ => Except.ok ([evC4], [extC4])
    blockTimestamp := fun _ => Except.ok 0 }

/-- The freshly initialized service state used by several witnesses. -/
def sC4 : Service := serviceInit { l1StartBlock := 0, l2StartBlock := 0 }

/-- Witness for C4: the mismatched batch fails and the store is unchanged. -/
theorem getSentMessageEvents_sender_mismatch_fails_witness :
    (∃ e, getSentMessageEvents [evC4] [extC4] = Except.error e) ∧
    (indexNewMessages l1C4 sC4).1.messageQueue = sC4.messageQueue :=
  ⟨(getSentMessageEvents_sender_mismatch_fails [evC4] [extC4] evC4 extC4
      (by simp) (by decide) (by decide)).1,
   (getSentMessageEvents_sender_mismatch_fails [evC4] [extC4] evC4 extC4
      (by simp) (by decide) (by decide)).2 l1C4 sC4 9 rfl rfl⟩

/-! ### Claims about the service state machine -/

/-- A send event used in the C1 scenario. -/
def evC1 : SentEvent :=
  { transactionHash := "0xc1", blockNumber := 5, sender := 0xAA, target := 0xBB
    messageNonce := 1, gasLimit := 200000, message := [0x12] }

/-- The record the indexer produces for `evC1` (no extension event). -/
def recC1 : MessageRec := mkRec evC1 0

/-- The stored message for `recC1`, already marked `Relayed`. -/
def relayedC1 : Message := { mkMessage recC1 7 with isRelayed := true }

/-- A store that already holds `recC1`'s hash with status `Relayed`, with the
cursor positioned so that the next cycle re-scans `evC1`'s block (as happens
after a mid-pass read failure). -/
def sC1 : Service :=
  { messageQueue := [(recC1.messageHash, relayedC1)]
    lastScannedL1Block := 4, lastScannedL2Block := 0
    metrics := { nodeConnectionFailures := 0, messagesSent := 1
                 messagesRelayed := 1, pendingMessages := 0 } }

/-- An L1 provider that re-serves `evC1` in the scanned range. -/
def l1C1 : L1Net :=
  { blockNumber := Except.ok 5
    queryLogs := fun _ _ => Except.ok ([evC1], [])
    blockTimestamp := fun _ => Except.ok 7 }

theorem indexNewMessages_single (net : L1Net) (s : Service) (latest : Nat)
    (msg : MessageRec) (ts : Nat)
    (hbn : net.blockNumber = Except.ok latest)
    (hlt : s.lastScannedL1Block < latest)
    (hscan : getSentMessageEventsNet net (s.lastScannedL1Block + 1) latest
      = Except.ok [msg])
    (hts : net.blockTimestamp msg.blockNumber = Except.ok ts) :
    (indexNewMessages net s).1.messageQueue
      = mapSet s.messageQueue msg.messageHash (mkMessage msg ts) := by
  simp only [indexNewMessages, hbn, if_pos hlt, hscan, addMessagesLoop, hts,
    indexInsertStep]

/-- C1 counterexample: re-indexing the send event of an already-`Relayed`
message is not a no-op: `indexNewMessages` overwrites the record and resets
its status to `Pending` (`isRelayed = false`). -/
theorem indexNewMessages_reindex_resets_relayed :
    mapGet sC1.messageQueue recC1.messageHash = some relayedC1 ∧
    relayedC1.isRelayed = true ∧
    (indexNewMessages l1C1 sC1).1.messageQueue
      = [(recC1.messageHash, mkMessage recC1 7)] ∧
    (mkMessage recC1 7).isRelayed = false := by
  refine ⟨?_, rfl, ?_, rfl⟩
  · simp [mapGet, sC1]
  · rw [indexNewMessages_single l1C1 sC1 5 recC1 7 rfl (by decide) rfl rfl]
    rw [show sC1.messageQueue = [(recC1.messageHash, relayedC1)] from rfl]
    unfold mapSet
    rw [if_pos rfl]

/-- C1 (amended): the indexing insert (`messageQueue.set` in the loops of
`indexNewMessages` / `indexHistoricalMessages`) is an unconditional
overwrite, not a no-op: after inserting an indexed record the store maps
its hash to the freshly built message with status `Pending`, even when the
previously stored record with that hash was `Relayed`. -/
theorem indexInsertStep_overwrites (s : Service) (msg : MessageRec) (timestamp : Nat)
    (prev : Message)
    (_hprev : mapGet s.messageQueue msg.messageHash = some prev)
    (_hrel : prev.isRelayed = true) :
    mapGet (indexInsertStep s msg timestamp).messageQueue msg.messageHash
        = some (mkMessage msg timestamp) ∧
    (mkMessage msg timestamp).isRelayed = false := by
  refine ⟨?_, rfl⟩
  unfold indexInsertStep
  exact mapGet_mapSet_self s.messageQueue msg.messageHash (mkMessage msg timestamp)

/-- Witness for the amended C1 at the concrete `Relayed` record of the
counterexample scenario. -/
theorem indexInsertStep_overwrites_witness :
    mapGet (indexInsertStep sC1 recC1 7).messageQueue recC1.messageHash
        = some (mkMessage recC1 7) ∧
    (mkMessage recC1 7).isRelayed = false :=
  indexInsertStep_overwrites sC1 recC1 7 relayedC1 (by simp [mapGet, sC1]) rfl

/-- An L1 provider whose head (50) is below the configured start block. -/
def l1C2 : L1Net :=
  { blockNumber := Except.ok 50
    queryLogs := fun _ _ => Except.ok ([], [])
    blockTimestamp := fun _ => Except.ok 0 }

/-- An L2 provider whose head (60) is below the configured start block. -/
def l2C2 : L2Net :=
  { blockNumber := Except.ok 60
    relayedHashes := fun _ _ => Except.ok [] }

/-- Start blocks above both chain heads. -/
def optsC2 : HOptions := { l1StartBlock := 100, l2StartBlock := 100 }

/-- C2 counterexample: with the configured start block (100) above the chain
head (50), the init-time historical pass moves the L1 cursor from 100 down
to 50 — the cursor decreases within the process lifetime. -/
theorem historical_pass_decreases_cursor :
    (serviceInit optsC2).lastScannedL1Block = 100 ∧
    (indexHistoricalMessages l1C2 l2C2 optsC2 (serviceInit optsC2)).1.lastScannedL1Block = 50 ∧
    (indexHistoricalMessages l1C2 l2C2 optsC2 (serviceInit optsC2)).1.lastScannedL1Block
      < (serviceInit optsC2).lastScannedL1Block := by
  refine ⟨rfl, rfl, ?_⟩
  decide

/-- C2 (amended): both cursors are non-decreasing in every poll cycle
(`indexNewMessages` and `checkRelayedMessages`), for arbitrary provider
responses; the init-time historical pass sets each cursor unconditionally
to the queried head, so monotonicity there holds provided each queried head
is at least the corresponding configured start block. -/
theorem cursors_monotonic :
    (∀ (net : L1Net) (s : Service),
        s.lastScannedL1Block ≤ (indexNewMessages net s).1.lastScannedL1Block) ∧
    (∀ (net : L2Net) (s : Service),
        s.lastScannedL2Block ≤ (checkRelayedMessages net s).1.lastScannedL2Block) ∧
    (∀ (l1 : L1Net) (l2 : L2Net) (opts : HOptions),
        (∀ b, l1.blockNumber = Except.ok b → opts.l1StartBlock ≤ b) →
        (∀ b, l2.blockNumber = Except.ok b → opts.l2StartBlock ≤ b) →
        opts.l1StartBlock ≤ (initService l1 l2 opts).1.lastScannedL1Block ∧
        opts.l2StartBlock ≤ (initService l1 l2 opts).1.lastScannedL2Block) := by
  refine ⟨?_, ?_, ?_⟩
  · intro net s
    unfold indexNewMessages
    split
    · exact Nat.le_refl _
    next latest hbn =>
      split
      next hlt =>
        split
        · exact Nat.le_refl _
        next msgs hscan =>
          split
          next s1 e hloop =>
            have hpres := addMessagesLoop_preserves net msgs s
            rw [hloop] at hpres
            exact Nat.le_of_eq hpres.1.symm
          next s1 hloop =>
            exact Nat.le_of_lt hlt
      next hlt => exact Nat.le_refl _
  · intro net s
    unfold checkRelayedMessages
    split
    · exact Nat.le_refl _
    next latest hbn =>
      split
      next hlt =>
        split
        · exact Nat.le_refl _
        next hashes hrh => exact Nat.le_of_lt hlt
      next hlt => exact Nat.le_refl _
  · intro l1 l2 opts h1 h2
    unfold initService indexHistoricalMessages
    split
    · exact ⟨Nat.le_refl _, Nat.le_refl _⟩
    next latest1 hb1 =>
      have hle1 := h1 latest1 hb1
      split
      · exact ⟨Nat.le_refl _, Nat.le_refl _⟩
      next latest2 hb2 =>
        have hle2 := h2 latest2 hb2
        split
        · exact ⟨Nat.le_refl _, Nat.le_refl _⟩
        next msgs hscan =>
          split
          next s1 e hloop =>
            have hpres := addMessagesLoop_preserves l1 msgs (serviceInit opts)
            rw [hloop] at hpres
            exact ⟨Nat.le_of_eq hpres.1.symm, Nat.le_of_eq hpres.2.1.symm⟩
          next s1 hloop =>
            have hpres := addMessagesLoop_preserves l1 msgs (serviceInit opts)
            rw [hloop] at hpres
            split
            next e hrh =>
              exact ⟨hle1, Nat.le_of_eq hpres.2.1.symm⟩
            next hashes hrh =>
              have hm := markRelayedHistLoop_cursors hashes
                { s1 with lastScannedL1Block := latest1 }
              exact ⟨le_of_le_of_eq hle1 hm.1.symm, hle2⟩

/-- An L1 provider with the head (120) above the start block. -/
def l1C2b : L1Net :=
  { blockNumber := Except.ok 120
    queryLogs := fun _ _ => Except.ok ([], [])
    blockTimestamp := fun _ => Except.ok 0 }

/-- An L2 provider with the head (130) above the start block. -/
def l2C2b : L2Net :=
  { blockNumber := Except.ok 130
    relayedHashes := fun _ _ => Except.ok [] }

/-- Witness for the amended C2: one poll cycle and one properly configured
init pass, at concrete inputs. -/
theorem cursors_monotonic_witness :
    sC4.lastScannedL1Block ≤ (indexNewMessages l1C2b sC4).1.lastScannedL1Block ∧
    optsC2.l1StartBlock ≤ (initService l1C2b l2C2b optsC2).1.lastScannedL1Block :=
  ⟨cursors_monotonic.1 l1C2b sC4,
   (cursors_monotonic.2.2 l1C2b l2C2b optsC2
      (by intro b h; injection h with h; subst h; decide)
      (by intro b h; injection h with h; subst h; decide)).1⟩

/-- A stored message that is already `Relayed`. -/
def mC3 : Message :=
  { messageHash := [1], sender := 2, target := 3, message := [], messageNonce := 0
    gasLimit := 0, value := 0, blockNumber := 0, transactionHash := "0x1"
    timestamp := 0, isRelayed := true }

/-- A store holding exactly one message, already relayed: zero pending. -/
def sC3 : Service :=
  { messageQueue := [([1], mC3)]
    lastScannedL1Block := 0, lastScannedL2Block := 0
    metrics := { nodeConnectionFailures := 0, messagesSent := 1
                 messagesRelayed := 1, pendingMessages := 0 } }

/-- C3: the `/healthz` handler always returns 200 with `ok: true` and never
mutates the state (nor does `/messages`), but the `pendingMessages` field it
reports is `messageQueue.size` — the total number of tracked messages — not
the pending count: on a store with one `Relayed` message and zero `Pending`
messages it reports `pendingMessages = 1` while the pending count is 0. -/
theorem healthz_reports_total_not_pending :
    (healthzHandler sC3).1.ok = true ∧
    (healthzHandler sC3).1.status = 200 ∧
    (healthzHandler sC3).1.pendingMessages = 1 ∧
    pendingCount sC3 = 0 ∧
    (healthzHandler sC3).2 = sC3 ∧
    (messagesHandler sC3).2 = sC3 := by
  decide

theorem message_update_self (m : Message) (b : Bool) (hb : m.isRelayed = b) :
    { m with isRelayed := b } = m := by
  cases m
  subst hb
  rfl

/-- C5 helper: the queue produced by one `relayPendingMessages` pass is the
pointwise image of the input queue: each entry keeps its key and fields and
its status becomes `isRelayed || relayOk`. -/
theorem relayLoop_fst (relayOk : Message → Bool) :
    ∀ (q : List (List Nat × Message)) (mets : Metrics),
      (relayLoop relayOk q mets).1 =
        q.map (fun p => (p.1, { p.2 with isRelayed := p.2.isRelayed || relayOk p.2 })) := by
  intro q
  induction q with
  | nil => intro mets; rfl
  | cons p rest ih =>
    intro mets
    obtain ⟨hash, message⟩ := p
    cases h1 : message.isRelayed with
    | true =>
      simp only [relayLoop, h1, if_true, List.map_cons, Bool.true_or]
      rw [message_update_self message true h1, ih mets]
    | false =>
      cases h2 : relayOk message with
      | true =>
        simp only [relayLoop, h1, h2, Bool.false_eq_true, if_false, if_true,
          List.map_cons, Bool.false_or]
        rw [ih { mets with messagesRelayed := mets.messagesRelayed + 1
                           pendingMessages := mets.pendingMessages - 1 }]
      | false =>
        simp only [relayLoop, h1, h2, Bool.false_eq_true, if_false,
          List.map_cons, Bool.false_or]
        rw [message_update_self message false h1, ih mets]

/-- C5: relay failures are isolated per message.  In one
`relayPendingMessages` pass, every queue entry is visited: entry `i` keeps
its key and fields, a pending message whose relay call fails
(`relayOk = false`) stays `Pending`, a pending message whose relay call
succeeds becomes `Relayed`, and the queue length is unchanged (the pass
does not abort at a failure). -/
theorem relayPendingMessages_isolated (relayOk : Message → Bool) (s : Service)
    (i : Nat) (hash : List Nat) (message : Message)
    (hget : s.messageQueue[i]? = some (hash, message)) :
    (relayPendingMessages relayOk s).messageQueue[i]? =
      some (hash, { message with isRelayed := message.isRelayed || relayOk message }) ∧
    (relayPendingMessages relayOk s).messageQueue.length = s.messageQueue.length := by
  have hq : (relayPendingMessages relayOk s).messageQueue =
      s.messageQueue.map
        (fun p => (p.1, { p.2 with isRelayed := p.2.isRelayed || relayOk p.2 })) :=
    relayLoop_fst relayOk s.messageQueue s.metrics
  rw [hq]
  constructor
  · rw [List.getElem?_map, hget]
    rfl
  · rw [List.length_map]

/-- A pending message whose relay call will fail in the C5 witness. -/
def mA5 : Message :=
  { messageHash := [1], sender := 2, target := 3, message := [], messageNonce := 0
    gasLimit := 0, value := 0, blockNumber := 0, transactionHash := "0xa"
    timestamp := 0, isRelayed := false }

/-- A pending message whose relay call will succeed in the C5 witness. -/
def mB5 : Message :=
  { messageHash := [2], sender := 2, target := 3, message := [], messageNonce := 1
    gasLimit := 0, value := 0, blockNumber := 0, transactionHash := "0xb"
    timestamp := 0, isRelayed := false }

/-- A store holding the two pending messages `mA5` and `mB5`. -/
def sC5 : Service :=
  { messageQueue := [([1], mA5), ([2], mB5)]
    lastScannedL1Block := 0, lastScannedL2Block := 0
    metrics := { nodeConnectionFailures := 0, messagesSent := 2
                 messagesRelayed := 0, pendingMessages := 2 } }

/-- A relay outcome where only `mB5`'s relay transaction confirms. -/
def relayOkC5 : Message → Bool := fun m => m.messageHash == [2]

/-- Witness for C5: in one pass with A failing and B succeeding, A remains
`Pending`, B becomes `Relayed`, and both entries were visited. -/
theorem relayPendingMessages_isolated_witness :
    (relayPendingMessages relayOkC5 sC5).messageQueue[0]?
        = some ([1], { mA5 with isRelayed := mA5.isRelayed || relayOkC5 mA5 }) ∧
    (relayPendingMessages relayOkC5 sC5).messageQueue[1]?
        = some ([2], { mB5 with isRelayed := mB5.isRelayed || relayOkC5 mB5 }) ∧
    ({ mA5 with isRelayed := mA5.isRelayed || relayOkC5 mA5 }).isRelayed = false ∧
    ({ mB5 with isRelayed := mB5.isRelayed || relayOkC5 mB5 }).isRelayed = true :=
  ⟨(relayPendingMessages_isolated relayOkC5 sC5 0 [1] mA5 rfl).1,
   (relayPendingMessages_isolated relayOkC5 sC5 1 [2] mB5 rfl).1,
   by decide, by decide⟩

/-- An L1 provider whose `getBlockNumber` throws. -/
def l1C6 : L1Net :=
  { blockNumber := Except.error "connection timeout"
    queryLogs := fun _ _ => Except.ok ([], [])
    blockTimestamp := fun _ => Except.ok 0 }

/-- An L2 provider whose `getBlockNumber` throws. -/
def l2C6 : L2Net :=
  { blockNumber := Except.error "ETIMEDOUT"
    relayedHashes := fun _ _ => Except.ok [] }

/-- The service state used in the C6 scenario. -/
def sC6 : Service :=
  { messageQueue := [], lastScannedL1Block := 10, lastScannedL2Block := 20
    metrics := { nodeConnectionFailures := 0, messagesSent := 0
                 messagesRelayed := 0, pendingMessages := 0 } }

/-- C6 counterexample: when fetching the L1 head throws, the pass aborts and
the cursor retains its prior value (as the claim states), but no failure
counter is incremented: the `nodeConnectionFailures` gauge — the only
failure-counter metric the service declares — keeps its prior value. -/
theorem indexNewMessages_failure_no_counter :
    (indexNewMessages l1C6 sC6).2 = some "connection timeout" ∧
    (indexNewMessages l1C6 sC6).1.lastScannedL1Block = 10 ∧
    (indexNewMessages l1C6 sC6).1.metrics.nodeConnectionFailures
      = sC6.metrics.nodeConnectionFailures :=
  ⟨rfl, rfl, rfl⟩

theorem indexNewMessages_abort_or_ok (net : L1Net) (s : Service) :
    ((indexNewMessages net s).1.lastScannedL1Block = s.lastScannedL1Block ∧
     (indexNewMessages net s).1.metrics.nodeConnectionFailures
       = s.metrics.nodeConnectionFailures)
    ∨ (indexNewMessages net s).2 = none := by
  unfold indexNewMessages
  split
  · exact Or.inl ⟨rfl, rfl⟩
  next latest hbn =>
    split
    next hlt =>
      split
      · exact Or.inl ⟨rfl, rfl⟩
      next msgs hscan =>
        split
        next s1 e hloop =>
          have hpres := addMessagesLoop_preserves net msgs s
          rw [hloop] at hpres
          exact Or.inl ⟨hpres.1, hpres.2.2⟩
        next s1 hloop => exact Or.inr rfl
    next hlt => exact Or.inr rfl

theorem checkRelayedMessages_abort_or_ok (net : L2Net) (s : Service) :
    ((checkRelayedMessages net s).1.lastScannedL2Block = s.lastScannedL2Block ∧
     (checkRelayedMessages net s).1.metrics.nodeConnectionFailures
       = s.metrics.nodeConnectionFailures)
    ∨ (checkRelayedMessages net s).2 = none := by
  unfold checkRelayedMessages
  split
  · exact Or.inl ⟨rfl, rfl⟩
  next latest hbn =>
    split
    next hlt =>
      split
      · exact Or.inl ⟨rfl, rfl⟩
      next hashes hrh => exact Or.inr rfl
    next hlt => exact Or.inr rfl

/-- C6 (amended): on any aborting read failure in `indexNewMessages`
(resp. `checkRelayedMessages`) the corresponding cursor retains its prior
value — so the next cycle retries the same range — and the
`nodeConnectionFailures` gauge is unchanged (the service never updates
it). -/
theorem read_failure_preserves_cursor :
    (∀ (net : L1Net) (s : Service),
        (indexNewMessages net s).2.isSome = true →
        (indexNewMessages net s).1.lastScannedL1Block = s.lastScannedL1Block ∧
        (indexNewMessages net s).1.metrics.nodeConnectionFailures
          = s.metrics.nodeConnectionFailures) ∧
    (∀ (net : L2Net) (s : Service),
        (checkRelayedMessages net s).2.isSome = true →
        (checkRelayedMessages net s).1.lastScannedL2Block = s.lastScannedL2Block ∧
        (checkRelayedMessages net s).1.metrics.nodeConnectionFailures
          = s.metrics.nodeConnectionFailures) := by
  constructor
  · intro net s h
    rcases indexNewMessages_abort_or_ok net s with hg | hnone
    · exact hg
    · rw [hnone] at h
      simp at h
  · intro net s h
    rcases checkRelayedMessages_abort_or_ok net s with hg | hnone
    · exact hg
    · rw [hnone] at h
      simp at h

/-- Witness for the amended C6 at the two concrete failing providers. -/
theorem read_failure_preserves_cursor_witness :
    (indexNewMessages l1C6 sC6).1.lastScannedL1Block = sC6.lastScannedL1Block ∧
    (checkRelayedMessages l2C6 sC6).1.lastScannedL2Block = sC6.lastScannedL2Block :=
  ⟨(read_failure_preserves_cursor.1 l1C6 sC6 rfl).1,
   (read_failure_preserves_cursor.2 l2C6 sC6 rfl).1⟩

/-- C7: unknown-hash confirmations never fabricate records.  For a hash that
is not a key of the store, the confirmation step of `checkRelayedMessages`
leaves the whole service state unchanged (no record created or modified);
for a hash whose record is already `Relayed`, the step is likewise a
no-op. -/
theorem markRelayedStep_unknown_or_relayed_noop (s : Service) (hash : List Nat) :
    (mapGet s.messageQueue hash = none → markRelayedStep s hash = s) ∧
    (∀ message, mapGet s.messageQueue hash = some message → message.isRelayed = true →
      markRelayedStep s hash = s) := by
  constructor
  · intro h
    simp only [markRelayedStep, h]
  · intro message h hrel
    simp only [markRelayedStep, h, hrel, if_true]

/-- A store for the C7 witness: one message, already relayed. -/
def sC7 : Service :=
  { messageQueue := [([1], mC3)]
    lastScannedL1Block := 0, lastScannedL2Block := 0
    metrics := { nodeConnectionFailures := 0, messagesSent := 1
                 messagesRelayed := 1, pendingMessages := 0 } }

/-- Witness for C7: an unknown hash and an already-relayed hash both leave
the store untouched. -/
theorem markRelayedStep_unknown_or_relayed_noop_witness :
    markRelayedStep sC7 [9] = sC7 ∧ markRelayedStep sC7 [1] = sC7 :=
  ⟨(markRelayedStep_unknown_or_relayed_noop sC7 [9]).1 rfl,
   (markRelayedStep_unknown_or_relayed_noop sC7 [1]).2 mC3 rfl rfl⟩

end Relayer
